import Mathlib

/-
Verification of the volume-enumeration and disk-counter logic of
`disk/disk_windows.go` (package `disk`).

The embedding models the native Windows calls as oracles supplied by an
environment value, and the producer goroutine `getPartitions` as a pure
function from that environment to the trace of actions it performs
(native calls, warnings appended to the accumulator, records sent on the
channel, and the final `FindVolumeClose`).  The consumer select loop of
`PartitionsWithContext` is modelled on top of that trace, with the
caller's context represented by the number of records the consumer
receives before `ctx.Done()` fires (`none` = the context never fires).
-/

set_option autoImplicit false

namespace Gopsutil

/-- Drive types, mirroring the Windows `GetDriveType` constants used by the
source (`DRIVE_UNKNOWN`, `DRIVE_NO_ROOT_DIR`, `DRIVE_REMOVABLE`,
`DRIVE_FIXED`, `DRIVE_REMOTE`, `DRIVE_CDROM`, `DRIVE_RAMDISK`). -/
inductive DriveType where
  | unknown
  | noRootDir
  | removable
  | fixed
  | remote
  | cdrom
  | ramdisk
deriving DecidableEq, Repr

/-- `fileFileCompression = int64(16)` from the source. -/
def fileFileCompression : Nat := 16

/-- `fileReadOnlyVolume = int64(524288)` from the source. -/
def fileReadOnlyVolume : Nat := 524288

/-- Result of a successful `GetVolumeInformationW` call: the filesystem
flags (`fsFlags`) and the filesystem name read from `fsNameBuf`. -/
structure FsInfo where
  fsFlags : Nat
  fsName : String
deriving DecidableEq, Repr

/-- The fields of `PartitionStat` populated by `getPartitions`. -/
structure PartitionStat where
  device : String
  mountpoint : String
  fstype : String
  opts : List String
deriving DecidableEq, Repr

/-- `strings.TrimRight(volPath, "\\")`: remove every trailing backslash. -/
def trimRightBackslash (s : String) : String :=
  String.mk ((s.data.reverse.dropWhile fun c => c == '\\').reverse)

/-- The options derivation of the source:
`opts := []string{"rw"}`; overwritten by `{"ro"}` when the read-only flag
is set; `"compress"` appended when the compression flag is set. -/
def mkOpts (fsFlags : Nat) : List String :=
  let opts := if Nat.land fsFlags fileReadOnlyVolume ≠ 0 then ["ro"] else ["rw"]
  if Nat.land fsFlags fileFileCompression ≠ 0 then opts ++ ["compress"] else opts

/-- The `PartitionStat` literal sent on `retChan` for one mount path:
`path := strings.TrimRight(volPath, "\\")`, used for both `Mountpoint`
and `Device`; `Fstype` from the volume-information call; `Opts` derived. -/
def mkStat (volPath : String) (info : FsInfo) : PartitionStat :=
  { device := trimRightBackslash volPath
    mountpoint := trimRightBackslash volPath
    fstype := info.fsName
    opts := mkOpts info.fsFlags }

/-- Warnings appended to the accumulator by `getPartitions`.
Modelled from the spec: the non-fatal warning accumulator
(`common.Warnings`, not under `src/`) whose `Add` appends one entry and
whose `Reference()` is a nil error exactly when no entry was added.
Each constructor mirrors one `warnings.Add` call site of the source. -/
inductive Warn where
  /-- `failed to find next volume: %w` -/
  | findNextFailed (e : String)
  /-- `failed to find paths for volume %s` (carries the volume name) -/
  | volumePathsFailed (volName : String)
  /-- the `windows.GetLastError()` value added when `GetDriveType`
  returns `DRIVE_UNKNOWN`; `none` models a nil error value -/
  | unknownDriveType (e : Option String)
  /-- `failed to get volume information: %w` -/
  | volumeInformationFailed (e : String)
deriving DecidableEq, Repr

/-- Oracle for the native calls made while handling one enumerated
volume identifier. -/
structure VolumeSpec where
  /-- the volume name written into `volNameBuf` -/
  name : String
  /-- `getVolumePaths` result: `none` models a failed
  `GetVolumePathNamesForVolumeNameW` call -/
  volumePaths : Option (List String)
  /-- the `GetDriveTypeW` result for the first mount path -/
  driveType : DriveType
  /-- the `windows.GetLastError()` value observed after an unknown type -/
  lastError : Option String
  /-- per-path `GetVolumeInformationW` result -/
  getVolumeInformation : String → Except String FsInfo

/-- One `FindNextVolumeW` call outcome. -/
inductive NextResult where
  | found (v : VolumeSpec)
  /-- `ERROR_NO_MORE_FILES`: normal exhaustion -/
  | exhausted
  /-- a failure other than `ERROR_NO_MORE_FILES` -/
  | error (e : String)

/-- The native environment of one enumeration run: the `FindFirstVolumeW`
outcome and the successive `FindNextVolumeW` outcomes. -/
structure Env where
  /-- `none` models `FindFirstVolumeW` returning `InvalidHandle` -/
  findFirstVolume : Option VolumeSpec
  /-- the error wrapped into `errFirstVol` when the first call fails -/
  findFirstError : String
  findNextResults : List NextResult

/-- Observable actions of the producer goroutine, in order. -/
inductive Action where
  | findFirstVolume
  | findNextVolume
  | getVolumePaths (volName : String)
  | getDriveType (path : String)
  | getVolumeInformation (path : String)
  /-- a `PartitionStat` delivered on `retChan` -/
  | emit (p : PartitionStat)
  /-- a `warnings.Add` call -/
  | warn (w : Warn)
  | findVolumeClose
deriving DecidableEq, Repr

/-- The admission test of the inner loop:
`driveType == DRIVE_REMOVABLE || driveType == DRIVE_FIXED ||
driveType == DRIVE_REMOTE || driveType == DRIVE_CDROM`. -/
def admittedType (dt : DriveType) : Bool :=
  dt == DriveType.removable || dt == DriveType.fixed ||
    dt == DriveType.remote || dt == DriveType.cdrom

/-- The inner `for _, volPath := range volPaths` loop of `getPartitions`.
`quota` is the number of channel sends the consumer will still accept
(`none` = unbounded); a send attempted with quota `some 0` blocks, the
`quitChan` branch of the select fires, and the producer returns (the
returned Bool is that stopped flag).  The trace records the
`GetVolumeInformationW` calls, warnings and delivered records. -/
def processPaths (dt : DriveType) (getInfo : String → Except String FsInfo) :
    List String → Option Nat → List Action × Option Nat × Bool
  | [], q => ([], q, false)
  | volPath :: rest, q =>
    if admittedType dt then
      match getInfo volPath with
      | Except.error e =>
        if dt == DriveType.cdrom || dt == DriveType.removable then
          let r := processPaths dt getInfo rest q
          (Action.getVolumeInformation volPath :: r.1, r.2)
        else
          let r := processPaths dt getInfo rest q
          (Action.getVolumeInformation volPath ::
            Action.warn (Warn.volumeInformationFailed e) :: r.1, r.2)
      | Except.ok info =>
        match q with
        | some 0 => ([Action.getVolumeInformation volPath], some 0, true)
        | some (k + 1) =>
          let r := processPaths dt getInfo rest (some k)
          (Action.getVolumeInformation volPath ::
            Action.emit (mkStat volPath info) :: r.1, r.2)
        | none =>
          let r := processPaths dt getInfo rest none
          (Action.getVolumeInformation volPath ::
            Action.emit (mkStat volPath info) :: r.1, r.2)
    else
      processPaths dt getInfo rest q

/-- The per-volume body of the outer loop: resolve the mount paths; when
at least one path exists, classify the first path once; an unknown type
records the `GetLastError` value as a warning and skips the volume;
otherwise the inner loop runs over every path. -/
def processVolume (v : VolumeSpec) (q : Option Nat) :
    List Action × Option Nat × Bool :=
  match v.volumePaths with
  | none =>
    ([Action.getVolumePaths v.name,
      Action.warn (Warn.volumePathsFailed v.name)], q, false)
  | some [] => ([Action.getVolumePaths v.name], q, false)
  | some (p0 :: rest) =>
    if v.driveType == DriveType.unknown then
      ([Action.getVolumePaths v.name, Action.getDriveType p0,
        Action.warn (Warn.unknownDriveType v.lastError)], q, false)
    else
      let r := processPaths v.driveType v.getVolumeInformation (p0 :: rest) q
      (Action.getVolumePaths v.name :: Action.getDriveType p0 :: r.1, r.2)

/-- The `FindNextVolumeW` phase of the outer loop: `ERROR_NO_MORE_FILES`
breaks; any other failure appends a warning and continues the loop
(issuing further `FindNextVolumeW` calls); a found volume is processed
by the per-volume body. -/
def runNexts (script : List NextResult) (q : Option Nat) :
    List Action × Option Nat × Bool :=
  match script with
  | [] => ([], q, false)
  | NextResult.exhausted :: _ => ([Action.findNextVolume], q, false)
  | NextResult.error e :: rest =>
    let r := runNexts rest q
    (Action.findNextVolume :: Action.warn (Warn.findNextFailed e) :: r.1, r.2)
  | NextResult.found v :: rest =>
    let rv := processVolume v q
    if rv.2.2 then
      (Action.findNextVolume :: rv.1, rv.2)
    else
      let r := runNexts rest rv.2.1
      (Action.findNextVolume :: rv.1 ++ r.1, r.2)

/-- The whole producer goroutine `getPartitions`: a failed
`FindFirstVolumeW` sets `errFirstVol` (second component) and returns
without a handle to close; otherwise the first volume is processed, the
loop runs, and the deferred `FindVolumeClose` is the final action on
every exit path. -/
def producerTrace (env : Env) (q : Option Nat) :
    List Action × Option String :=
  match env.findFirstVolume with
  | none => ([Action.findFirstVolume], some env.findFirstError)
  | some v =>
    let rv := processVolume v q
    if rv.2.2 then
      (Action.findFirstVolume :: rv.1 ++ [Action.findVolumeClose], none)
    else
      let r := runNexts env.findNextResults rv.2.1
      (Action.findFirstVolume :: rv.1 ++ r.1 ++ [Action.findVolumeClose],
        none)

/-- The records delivered on `retChan`, in trace order. -/
def emittedOf (t : List Action) : List PartitionStat :=
  t.filterMap fun a =>
    match a with
    | Action.emit p => some p
    | _ => none

/-- The warnings accumulated by `warnings.Add`, in trace order. -/
def warningsOf (t : List Action) : List Warn :=
  t.filterMap fun a =>
    match a with
    | Action.warn w => some w
    | _ => none

/-- Number of `FindNextVolumeW` calls in a trace. -/
def countFindNext (t : List Action) : Nat :=
  t.count Action.findNextVolume

/-- Number of `FindVolumeClose` calls in a trace. -/
def countClose (t : List Action) : Nat :=
  t.count Action.findVolumeClose

/-- Recognizer for `GetDriveTypeW` calls. -/
def isGetDriveType : Action → Bool
  | Action.getDriveType _ => true
  | _ => false

/-- Number of `GetDriveTypeW` (classification) calls in a trace. -/
def countGetDriveType (t : List Action) : Nat :=
  (t.filter isGetDriveType).length

/-- Actions that the inner per-path loop can produce. -/
def pathAction : Action → Bool
  | Action.getVolumeInformation _ => true
  | Action.warn _ => true
  | Action.emit _ => true
  | _ => false

/-- Actions that the per-volume body can produce (everything except the
cursor calls and the close). -/
def volAction : Action → Bool
  | Action.findFirstVolume => false
  | Action.findNextVolume => false
  | Action.findVolumeClose => false
  | _ => true

/-- The error value returned by `PartitionsWithContext` alongside the
records: nil, the fatal `errFirstVol`, the `warnings.Reference()` value
(non-nil exactly when warnings were added), or `ctx.Err()`. -/
inductive RetErr where
  | noError
  | fatalFirstVol (e : String)
  | warningsRef (ws : List Warn)
  | ctxCancelled
deriving DecidableEq, Repr

/-- The consumer select loop of `PartitionsWithContext`.  `cancelAfter =
some k` means `ctx.Done()` fires once `k` records have been received
(with cancellation winning the select when both are ready); `none` means
the context never fires.  On a closed channel the function returns the
accumulated records with `errFirstVol` when set, else with
`warnings.Reference()`. -/
def PartitionsWithContext (env : Env) (cancelAfter : Option Nat) :
    List PartitionStat × RetErr :=
  let pr := producerTrace env none
  let records := emittedOf pr.1
  let finalErr :=
    match pr.2 with
    | some e => RetErr.fatalFirstVol e
    | none =>
      if warningsOf pr.1 = [] then RetErr.noError
      else RetErr.warningsRef (warningsOf pr.1)
  match cancelAfter with
  | some k =>
    if k ≤ records.length then (records.take k, RetErr.ctxCancelled)
    else (records, finalErr)
  | none => (records, finalErr)

/-- The semantic fields of `diskPerformance` consumed by
`IOCountersWithContext` (`int64` counters as `Int`, `uint32` counters as
`Nat`). -/
structure DrivePerf where
  bytesRead : Int
  bytesWritten : Int
  readTime : Int
  writeTime : Int
  readCount : Nat
  writeCount : Nat
deriving DecidableEq, Repr

/-- Outcome of handling one candidate drive letter: the `GetDriveType`,
`CreateFile` and `DeviceIoControl` calls collapsed into one oracle. -/
inductive DriveQuery where
  /-- `GetDriveType` returned 0: the function returns
  `windows.GetLastError()` (possibly nil) with the map built so far -/
  | typeErr (e : Option String)
  /-- drive type is not `DRIVE_FIXED`: the letter is skipped -/
  | notFixed
  /-- `CreateFile` failed with `ERROR_FILE_NOT_FOUND`: skipped -/
  | fileNotFound
  /-- `CreateFile` failed otherwise: the function returns the error -/
  | openErr (e : String)
  /-- `DeviceIoControl` failed: the function returns the error -/
  | ioctlErr (e : String)
  /-- the performance counters read for the device -/
  | perf (p : DrivePerf)

/-- Native environment of one `IOCountersWithContext` run:
`logicalDrives` is the prefix `lpBuffer[:lpBufferLen]` of the
`GetLogicalDriveStrings` buffer (or its error), `query` the per-letter
oracle. -/
structure IOEnv where
  logicalDrives : Except String (List Char)
  query : Char → DriveQuery

/-- The fields of `IOCountersStat` populated by the source. -/
structure IOCountersStat where
  readCount : Nat
  writeCount : Nat
  readBytes : Nat
  writeBytes : Nat
  readTime : Nat
  writeTime : Nat
  name : String
deriving DecidableEq, Repr

/-- Go's `uint64(x)` conversion of an `int64`: reduce modulo `2 ^ 64`. -/
def toUint64 (x : Int) : Nat :=
  (Int.emod x (2 ^ 64)).toNat

/-- `path := string(rune(v)) + ":"`. -/
def driveName (c : Char) : String :=
  String.singleton c ++ ":"

/-- The `IOCountersStat` literal stored in `drivemap`; `Int.tdiv` is
Go's truncated `int64` division, so `ReadTime`/`WriteTime` are the raw
100ns tick counters divided by 10000 and then by 1000. -/
def mkIOStat (c : Char) (p : DrivePerf) : IOCountersStat :=
  { readBytes := toUint64 p.bytesRead
    writeBytes := toUint64 p.bytesWritten
    readCount := p.readCount
    writeCount := p.writeCount
    readTime := toUint64 (Int.tdiv (Int.tdiv p.readTime 10000) 1000)
    writeTime := toUint64 (Int.tdiv (Int.tdiv p.writeTime 10000) 1000)
    name := driveName c }

/-- Go map assignment `drivemap[path] = stat` on the association-list
model: replace an existing binding or append a new one. -/
def mapSet (m : List (String × IOCountersStat)) (k : String)
    (v : IOCountersStat) : List (String × IOCountersStat) :=
  match m with
  | [] => [(k, v)]
  | (k0, v0) :: rest =>
    if k0 = k then (k, v) :: rest else (k0, v0) :: mapSet rest k v

/-- The drive-letter loop of `IOCountersWithContext`: characters outside
`A`..`Z` are skipped; a zero `GetDriveType`, a `CreateFile` failure
other than `ERROR_FILE_NOT_FOUND`, or a `DeviceIoControl` failure
returns the map built so far together with the error; non-fixed and
missing drives are skipped; otherwise the stat record is stored. -/
def ioLoop (query : Char → DriveQuery) :
    List Char → List (String × IOCountersStat) →
      List (String × IOCountersStat) × Option String
  | [], acc => (acc, none)
  | c :: rest, acc =>
    if 'A' ≤ c ∧ c ≤ 'Z' then
      match query c with
      | DriveQuery.typeErr e => (acc, e)
      | DriveQuery.notFixed => ioLoop query rest acc
      | DriveQuery.fileNotFound => ioLoop query rest acc
      | DriveQuery.openErr e => (acc, some e)
      | DriveQuery.ioctlErr e => (acc, some e)
      | DriveQuery.perf p =>
        ioLoop query rest (mapSet acc (driveName c) (mkIOStat c p))
    else ioLoop query rest acc

/-- `IOCountersWithContext(ctx, names...)`: the variadic `names`
argument is part of the signature but never consulted by the body. -/
def IOCountersWithContext (env : IOEnv) (names : List String) :
    List (String × IOCountersStat) × Option String :=
  match env.logicalDrives with
  | Except.error e => ([], some e)
  | Except.ok buf => ioLoop env.query buf []

/-! ### Concrete environments used as counterexamples and witnesses -/

/-- A fixed volume with a single mount path and a successful
volume-information lookup. -/
def volFixed (nm path fs : String) : VolumeSpec :=
  { name := nm
    volumePaths := some [path]
    driveType := DriveType.fixed
    lastError := none
    getVolumeInformation := fun _ => Except.ok { fsFlags := 0, fsName := fs } }

/-- A volume whose drive type classifies as `DRIVE_UNKNOWN`. -/
def volUnknown : VolumeSpec :=
  { name := "VU"
    volumePaths := some ["U:\\"]
    driveType := DriveType.unknown
    lastError := some "last error 5"
    getVolumeInformation := fun _ => Except.error "unused" }

/-- A successfully opened enumeration whose cursor yields no usable
volume: the first volume resolves to zero mount paths, then exhaustion. -/
def volNoPaths : VolumeSpec :=
  { name := "V0"
    volumePaths := some []
    driveType := DriveType.fixed
    lastError := none
    getVolumeInformation := fun _ => Except.error "unused" }

/-- Enumeration in which the cursor-advance fails once (not exhaustion)
after the first volume, then yields a second volume, then exhausts. -/
def envAdvanceFail : Env :=
  { findFirstVolume := some (volFixed "V1" "C:\\" "ntfs")
    findFirstError := ""
    findNextResults :=
      [NextResult.error "advance failed",
       NextResult.found (volFixed "V2" "D:\\" "ntfs"),
       NextResult.exhausted] }

/-- Enumeration whose only volume classifies as unknown. -/
def envUnknownVol : Env :=
  { findFirstVolume := some volUnknown
    findFirstError := ""
    findNextResults := [NextResult.exhausted] }

/-- Enumeration that fails to open the cursor. -/
def envOpenFail : Env :=
  { findFirstVolume := none
    findFirstError := "open failed"
    findNextResults := [] }

/-- Successfully opened enumeration producing zero records and zero
warnings. -/
def envZeroRecords : Env :=
  { findFirstVolume := some volNoPaths
    findFirstError := ""
    findNextResults := [NextResult.exhausted] }

/-- One ordinary fixed volume followed by exhaustion. -/
def envOneFixed : Env :=
  { findFirstVolume := some (volFixed "V1" "C:\\" "ntfs")
    findFirstError := ""
    findNextResults := [NextResult.exhausted] }

/-- A volume of fixed type with two mount paths, both inspectable. -/
def volTwoPaths : VolumeSpec :=
  { name := "V2P"
    volumePaths := some ["C:\\", "C:\\mnt\\data\\"]
    driveType := DriveType.fixed
    lastError := none
    getVolumeInformation := fun _ =>
      Except.ok { fsFlags := 524288, fsName := "ntfs" } }

/-- A volume-information oracle that fails on every path. -/
def giFail : String → Except String FsInfo :=
  fun _ => Except.error "no info"

/-- Performance counters whose busy-time fields hold 10,000,000 ticks of
100ns each (exactly one second of busy time). -/
def perfBusy : DrivePerf :=
  { bytesRead := 0
    bytesWritten := 0
    readTime := 10000000
    writeTime := 10000000
    readCount := 0
    writeCount := 0 }

/-- IO environment exposing a single fixed drive `C` whose counters are
`perfBusy`. -/
def ioEnvBusy : IOEnv :=
  { logicalDrives := Except.ok ['C', ':', '\\']
    query := fun _ => DriveQuery.perf perfBusy }

/-! ### Helper lemmas -/

theorem mem_emittedOf {p : PartitionStat} {t : List Action} :
    p ∈ emittedOf t ↔ Action.emit p ∈ t := by
  unfold emittedOf
  rw [List.mem_filterMap]
  constructor
  · rintro ⟨a, ha, hf⟩
    cases a <;> simp_all
  · intro h
    exact ⟨Action.emit p, h, rfl⟩

theorem processPaths_actions (dt : DriveType)
    (gi : String → Except String FsInfo) (ps : List String) (q : Option Nat) :
    ∀ a ∈ (processPaths dt gi ps q).1, pathAction a = true := by
  induction ps generalizing q with
  | nil => simp [processPaths]
  | cons p rest ih =>
    cases hA : admittedType dt with
    | false =>
      simp only [processPaths, hA, Bool.false_eq_true, if_false]
      exact ih q
    | true =>
      cases hI : gi p with
      | error e =>
        cases hD : (dt == DriveType.cdrom || dt == DriveType.removable) with
        | true =>
          simp only [processPaths, hA, if_true, hI, hD]
          intro a ha
          rcases List.mem_cons.mp ha with h | h
          · subst h; rfl
          · exact ih q a h
        | false =>
          simp only [processPaths, hA, if_true, hI, hD, Bool.false_eq_true,
            if_false]
          intro a ha
          rcases List.mem_cons.mp ha with h | h
          · subst h; rfl
          rcases List.mem_cons.mp h with h2 | h2
          · subst h2; rfl
          · exact ih q a h2
      | ok info =>
        match q with
        | none =>
          simp only [processPaths, hA, if_true, hI]
          intro a ha
          rcases List.mem_cons.mp ha with h | h
          · subst h; rfl
          rcases List.mem_cons.mp h with h2 | h2
          · subst h2; rfl
          · exact ih none a h2
        | some 0 =>
          simp only [processPaths, hA, if_true, hI]
          intro a ha
          rcases List.mem_cons.mp ha with h | h
          · subst h; rfl
          · simp at h
        | some (k + 1) =>
          simp only [processPaths, hA, if_true, hI]
          intro a ha
          rcases List.mem_cons.mp ha with h | h
          · subst h; rfl
          rcases List.mem_cons.mp h with h2 | h2
          · subst h2; rfl
          · exact ih (some k) a h2

theorem processVolume_actions (v : VolumeSpec) (q : Option Nat) :
    ∀ a ∈ (processVolume v q).1, volAction a = true := by
  unfold processVolume
  cases hP : v.volumePaths with
  | none =>
    intro a ha
    rcases List.mem_cons.mp ha with h | h
    · subst h; rfl
    · simp at h; subst h; rfl
  | some paths =>
    cases paths with
    | nil =>
      intro a ha
      simp at ha; subst ha; rfl
    | cons p0 rest =>
      cases hU : (v.driveType == DriveType.unknown) with
      | true =>
        simp only [hU, if_true]
        intro a ha
        rcases List.mem_cons.mp ha with h | h
        · subst h; rfl
        rcases List.mem_cons.mp h with h2 | h2
        · subst h2; rfl
        · simp at h2; subst h2; rfl
      | false =>
        simp only [hU, Bool.false_eq_true, if_false]
        intro a ha
        rcases List.mem_cons.mp ha with h | h
        · subst h; rfl
        rcases List.mem_cons.mp h with h2 | h2
        · subst h2; rfl
        · have hp := processPaths_actions v.driveType v.getVolumeInformation
            (p0 :: rest) q a h2
          cases a <;> simp_all [pathAction, volAction]

theorem processVolume_close_free (v : VolumeSpec) (q : Option Nat) :
    Action.findVolumeClose ∉ (processVolume v q).1 := by
  intro h
  have := processVolume_actions v q _ h
  simp [volAction] at this

theorem runNexts_close_free (script : List NextResult) (q : Option Nat) :
    Action.findVolumeClose ∉ (runNexts script q).1 := by
  induction script generalizing q with
  | nil => simp [runNexts]
  | cons r rest ih =>
    cases r with
    | exhausted => simp [runNexts]
    | error e =>
      simp only [runNexts, List.mem_cons]
      push_neg
      refine ⟨by simp, by simp, ih q⟩
    | found v =>
      simp only [runNexts]
      split
      · intro h
        rcases List.mem_cons.mp h with h1 | h1
        · exact absurd h1 (by simp)
        · exact processVolume_close_free v q h1
      · intro h
        rcases List.mem_cons.mp h with h1 | h1
        · exact absurd h1 (by simp)
        rcases List.mem_append.mp h1 with h2 | h2
        · exact processVolume_close_free v q h2
        · exact ih _ h2

theorem processPaths_snd_none (dt : DriveType)
    (gi : String → Except String FsInfo) (ps : List String) :
    (processPaths dt gi ps none).2 = (none, false) := by
  induction ps with
  | nil => simp [processPaths]
  | cons p rest ih =>
    cases hA : admittedType dt with
    | false =>
      simp only [processPaths, hA, Bool.false_eq_true, if_false]
      exact ih
    | true =>
      cases hI : gi p with
      | error e =>
        cases hD : (dt == DriveType.cdrom || dt == DriveType.removable) with
        | true => simpa only [processPaths, hA, if_true, hI, hD] using ih
        | false =>
          simpa only [processPaths, hA, if_true, hI, hD, Bool.false_eq_true,
            if_false] using ih
      | ok info => simpa only [processPaths, hA, if_true, hI] using ih

theorem processVolume_snd_none (v : VolumeSpec) :
    (processVolume v none).2 = (none, false) := by
  unfold processVolume
  cases v.volumePaths with
  | none => rfl
  | some paths =>
    cases paths with
    | nil => rfl
    | cons p0 rest =>
      cases hU : (v.driveType == DriveType.unknown) with
      | true => simp [hU]
      | false =>
        simp only [hU, Bool.false_eq_true, if_false]
        exact processPaths_snd_none v.driveType v.getVolumeInformation
          (p0 :: rest)

theorem runNexts_snd_none (script : List NextResult) :
    (runNexts script none).2 = (none, false) := by
  induction script with
  | nil => rfl
  | cons r rest ih =>
    cases r with
    | exhausted => rfl
    | error e => simpa only [runNexts] using ih
    | found v =>
      simp only [runNexts, processVolume_snd_none v]
      exact ih

theorem mkOpts_eq_append (fsFlags : Nat) :
    mkOpts fsFlags =
      (if Nat.land fsFlags fileReadOnlyVolume ≠ 0 then ["ro"] else ["rw"])
        ++ (if Nat.land fsFlags fileFileCompression ≠ 0 then ["compress"]
          else []) := by
  unfold mkOpts
  by_cases h1 : Nat.land fsFlags fileReadOnlyVolume ≠ 0 <;>
    by_cases h2 : Nat.land fsFlags fileFileCompression ≠ 0 <;>
    simp [h1, h2]

theorem emit_mem_processPaths (dt : DriveType)
    (gi : String → Except String FsInfo) (ps : List String) (q : Option Nat)
    (p : PartitionStat) (hp : Action.emit p ∈ (processPaths dt gi ps q).1) :
    ∃ path info, gi path = Except.ok info ∧ p = mkStat path info := by
  induction ps generalizing q with
  | nil => simp [processPaths] at hp
  | cons a rest ih =>
    cases hA : admittedType dt with
    | false =>
      simp only [processPaths, hA, Bool.false_eq_true, if_false] at hp
      exact ih q hp
    | true =>
      cases hI : gi a with
      | error e =>
        cases hD : (dt == DriveType.cdrom || dt == DriveType.removable) with
        | true =>
          simp only [processPaths, hA, if_true, hI, hD] at hp
          rcases List.mem_cons.mp hp with h | h
          · exact absurd h (by simp)
          · exact ih q h
        | false =>
          simp only [processPaths, hA, if_true, hI, hD, Bool.false_eq_true,
            if_false] at hp
          rcases List.mem_cons.mp hp with h | h
          · exact absurd h (by simp)
          rcases List.mem_cons.mp h with h2 | h2
          · exact absurd h2 (by simp)
          · exact ih q h2
      | ok info =>
        match q with
        | none =>
          simp only [processPaths, hA, if_true, hI] at hp
          rcases List.mem_cons.mp hp with h | h
          · exact absurd h (by simp)
          rcases List.mem_cons.mp h with h2 | h2
          · have hpe : p = mkStat a info := by
              simpa using h2
            exact ⟨a, info, hI, hpe⟩
          · exact ih none h2
        | some 0 =>
          simp only [processPaths, hA, if_true, hI] at hp
          simp at hp
        | some (k + 1) =>
          simp only [processPaths, hA, if_true, hI] at hp
          rcases List.mem_cons.mp hp with h | h
          · exact absurd h (by simp)
          rcases List.mem_cons.mp h with h2 | h2
          · have hpe : p = mkStat a info := by
              simpa using h2
            exact ⟨a, info, hI, hpe⟩
          · exact ih (some k) h2

theorem emit_mem_processVolume (v : VolumeSpec) (q : Option Nat)
    (p : PartitionStat) (hp : Action.emit p ∈ (processVolume v q).1) :
    ∃ path info, v.getVolumeInformation path = Except.ok info
      ∧ p = mkStat path info := by
  cases hP : v.volumePaths with
  | none =>
    simp only [processVolume, hP] at hp
    simp at hp
  | some paths =>
    cases paths with
    | nil =>
      simp only [processVolume, hP] at hp
      simp at hp
    | cons p0 rest =>
      cases hU : (v.driveType == DriveType.unknown) with
      | true =>
        simp only [processVolume, hP, hU, if_true] at hp
        simp at hp
      | false =>
        simp only [processVolume, hP, hU, Bool.false_eq_true, if_false] at hp
        rcases List.mem_cons.mp hp with h | h
        · exact absurd h (by simp)
        rcases List.mem_cons.mp h with h2 | h2
        · exact absurd h2 (by simp)
        · exact emit_mem_processPaths _ _ _ _ p h2

theorem emit_mem_runNexts (script : List NextResult) (q : Option Nat)
    (p : PartitionStat) (hp : Action.emit p ∈ (runNexts script q).1) :
    ∃ path info, p = mkStat path info := by
  induction script generalizing q with
  | nil => simp [runNexts] at hp
  | cons r rest ih =>
    cases r with
    | exhausted => simp [runNexts] at hp
    | error e =>
      simp only [runNexts] at hp
      rcases List.mem_cons.mp hp with h | h
      · exact absurd h (by simp)
      rcases List.mem_cons.mp h with h2 | h2
      · exact absurd h2 (by simp)
      · exact ih q h2
    | found v =>
      simp only [runNexts] at hp
      split at hp
      · rcases List.mem_cons.mp hp with h | h
        · exact absurd h (by simp)
        · rcases emit_mem_processVolume v q p h with ⟨path, info, _, hpe⟩
          exact ⟨path, info, hpe⟩
      · rcases List.mem_cons.mp hp with h | h
        · exact absurd h (by simp)
        rcases List.mem_append.mp h with h2 | h2
        · rcases emit_mem_processVolume v q p h2 with ⟨path, info, _, hpe⟩
          exact ⟨path, info, hpe⟩
        · exact ih _ h2

theorem emit_mem_producer (env : Env) (q : Option Nat) (p : PartitionStat)
    (hp : Action.emit p ∈ (producerTrace env q).1) :
    ∃ path info, p = mkStat path info := by
  cases hF : env.findFirstVolume with
  | none =>
    simp only [producerTrace, hF] at hp
    simp at hp
  | some v =>
    simp only [producerTrace, hF] at hp
    split at hp
    · rcases List.mem_append.mp hp with h | h
      · rcases List.mem_cons.mp h with h2 | h2
        · exact absurd h2 (by simp)
        · rcases emit_mem_processVolume v q p h2 with ⟨path, info, _, hpe⟩
          exact ⟨path, info, hpe⟩
      · simp at h
    · rcases List.mem_append.mp hp with h | h
      · rcases List.mem_append.mp h with h2 | h2
        · rcases List.mem_cons.mp h2 with h3 | h3
          · exact absurd h3 (by simp)
          · rcases emit_mem_processVolume v q p h3 with ⟨path, info, _, hpe⟩
            exact ⟨path, info, hpe⟩
        · exact emit_mem_runNexts _ _ p h2
      · simp at h

theorem producer_snd_some (env : Env) (v : VolumeSpec)
    (h : env.findFirstVolume = some v) (q : Option Nat) :
    (producerTrace env q).2 = none := by
  simp only [producerTrace, h]
  split <;> rfl

theorem producer_fail_eq (env : Env) (q : Option Nat)
    (h : env.findFirstVolume = none) :
    producerTrace env q
      = ([Action.findFirstVolume], some env.findFirstError) := by
  simp [producerTrace, h]

theorem partitions_fatal_imp (env : Env) (k : Option Nat) (e : String)
    (h : (PartitionsWithContext env k).2 = RetErr.fatalFirstVol e) :
    env.findFirstVolume = none ∧ (PartitionsWithContext env k).1 = [] := by
  cases hF : env.findFirstVolume with
  | some v =>
    exfalso
    have hsnd := producer_snd_some env v hF none
    cases k with
    | none =>
      simp only [PartitionsWithContext, hsnd] at h
      split at h <;> simp_all
    | some kk =>
      simp only [PartitionsWithContext, hsnd] at h
      split at h
      · simp at h
      · split at h <;> simp_all
  | none =>
    refine ⟨rfl, ?_⟩
    have hpr := producer_fail_eq env none hF
    have hrec : emittedOf (producerTrace env none).1 = [] := by
      rw [hpr]
      rfl
    cases k with
    | none =>
      simp only [PartitionsWithContext, hrec]
    | some kk =>
      simp only [PartitionsWithContext, hrec]
      split <;> simp

theorem partitions_cancel_eq (env : Env) (k : Nat)
    (h : k ≤ (emittedOf (producerTrace env none).1).length) :
    PartitionsWithContext env (some k)
      = ((emittedOf (producerTrace env none).1).take k,
        RetErr.ctxCancelled) := by
  simp only [PartitionsWithContext]
  rw [if_pos h]

theorem processPaths_no_gdt (dt : DriveType)
    (gi : String → Except String FsInfo) (ps : List String) (q : Option Nat) :
    (processPaths dt gi ps q).1.filter isGetDriveType = [] := by
  rw [List.filter_eq_nil_iff]
  intro a ha
  have := processPaths_actions dt gi ps q a ha
  cases a <;> simp_all [pathAction, isGetDriveType]

theorem processPaths_all_ok (dt : DriveType)
    (gi : String → Except String FsInfo) (ps : List String)
    (info : String → FsInfo) (hA : admittedType dt = true)
    (hok : ∀ p ∈ ps, gi p = Except.ok (info p)) :
    emittedOf (processPaths dt gi ps none).1
      = ps.map fun p => mkStat p (info p) := by
  induction ps with
  | nil => simp [processPaths, emittedOf]
  | cons a rest ih =>
    have ha : gi a = Except.ok (info a) := hok a (List.mem_cons_self a rest)
    have hstep : emittedOf (processPaths dt gi (a :: rest) none).1
        = mkStat a (info a)
          :: emittedOf (processPaths dt gi rest none).1 := by
      simp only [processPaths, hA, if_true, ha]
      rfl
    rw [hstep, ih fun p hp => hok p (List.mem_cons_of_mem a hp),
      List.map_cons]

/-! ### Claim theorems -/

/-- C7: on every exit path of a producer that opened the enumeration
handle — normal exhaustion, any per-volume outcome, or cancellation via
the quit channel after any number of sends — the deferred
`FindVolumeClose` runs exactly once, as the last action before the
producer finishes, so the native handle is never leaked. -/
theorem handle_closed_on_exit (env : Env) (q : Option Nat) (v : VolumeSpec)
    (h : env.findFirstVolume = some v) :
    countClose (producerTrace env q).1 = 1
    ∧ (producerTrace env q).1.getLast? = some Action.findVolumeClose := by
  have h1 : Action.findVolumeClose ∉
      Action.findFirstVolume :: (processVolume v q).1 := by
    intro hmem
    rcases List.mem_cons.mp hmem with h2 | h2
    · exact absurd h2 (by simp)
    · exact processVolume_close_free v q h2
  constructor
  · simp only [countClose, producerTrace, h]
    split
    · rw [List.count_append, List.count_eq_zero.mpr h1]
      rfl
    · rw [List.count_append, List.count_append,
        List.count_eq_zero.mpr h1,
        List.count_eq_zero.mpr (runNexts_close_free env.findNextResults _)]
      rfl
  · simp only [producerTrace, h]
    split
    · exact List.getLast?_concat _
    · exact List.getLast?_concat _

/-- Witness for C7: concrete environment, cancellation before the first
send is accepted (quota 0): the handle is still closed, last. -/
theorem handle_closed_on_exit_witness :
    countClose (producerTrace envOneFixed (some 0)).1 = 1
    ∧ (producerTrace envOneFixed (some 0)).1.getLast?
      = some Action.findVolumeClose :=
  handle_closed_on_exit envOneFixed (some 0) (volFixed "V1" "C:\\" "ntfs") rfl

/-- C9: `IOCountersWithContext` never consults its variadic `names`
argument: for the same native device state, any two name lists (the
empty list included) produce the same device map and the same error. -/
theorem ioCounters_ignores_names (env : IOEnv)
    (names1 names2 : List String) :
    IOCountersWithContext env names1 = IOCountersWithContext env names2 :=
  rfl

/-- C2 at the failing input: a raw busy-time counter of 10,000,000
ticks of 100ns (exactly one second) is divided by 10,000 and then by
1,000, which stores 1 — not the 1000 milliseconds the claim (and the
comment `convert to ms` in the source) promise. -/
theorem ioCounters_tick_conversion_failing_input :
    (IOCountersWithContext ioEnvBusy []).1 = [("C:", mkIOStat 'C' perfBusy)]
    ∧ (mkIOStat 'C' perfBusy).readTime = 1
    ∧ (mkIOStat 'C' perfBusy).writeTime = 1
    ∧ (mkIOStat 'C' perfBusy).readTime ≠ 1000 := by
  refine ⟨?_, ?_, ?_, ?_⟩ <;> decide

/-- C8: every `PartitionStat` delivered on the channel, in any
environment and under any cancellation point, is an `mkStat` record
whose options list is exactly `["ro"]` when the read-only-volume flag is
set and exactly `["rw"]` otherwise, with `"compress"` appended as a
further element if and only if the file-compression flag is set. -/
theorem emitted_opts_shape (env : Env) (q : Option Nat) (p : PartitionStat)
    (hp : p ∈ emittedOf (producerTrace env q).1) :
    ∃ path info, p = mkStat path info
      ∧ p.opts =
        (if Nat.land info.fsFlags fileReadOnlyVolume ≠ 0 then ["ro"]
          else ["rw"])
          ++ (if Nat.land info.fsFlags fileFileCompression ≠ 0 then
            ["compress"] else []) := by
  rcases emit_mem_producer env q p (mem_emittedOf.mp hp) with ⟨path, info, hpe⟩
  refine ⟨path, info, hpe, ?_⟩
  rw [hpe]
  exact mkOpts_eq_append info.fsFlags

/-- C1 counterexample: in `envAdvanceFail` the cursor-advance fails once
(non-exhaustion) after V1 was yielded, yet the producer issues two
further `FindNextVolumeW` calls (three in total) and the record of V2 —
a volume yielded after the failure — is still delivered: the failure
does not end the enumeration stream. -/
theorem advance_error_counterexample :
    warningsOf (producerTrace envAdvanceFail none).1
      = [Warn.findNextFailed "advance failed"]
    ∧ countFindNext (producerTrace envAdvanceFail none).1 = 3
    ∧ (PartitionsWithContext envAdvanceFail none).1 =
        [mkStat "C:\\" { fsFlags := 0, fsName := "ntfs" },
         mkStat "D:\\" { fsFlags := 0, fsName := "ntfs" }] := by
  refine ⟨?_, ?_, ?_⟩ <;> decide

/-- C1 amended: a mid-enumeration cursor-advance failure other than the
exhaustion signal appends exactly one warning describing that failure
and then continues the loop: one further cursor-advance call is issued
immediately (no stream end, no retry bookkeeping), the records and
warnings of the remaining enumeration are unchanged, and the failure is
never fatal. -/
theorem advance_error_warns_and_continues (e : String)
    (rest : List NextResult) (q : Option Nat) :
    warningsOf (runNexts (NextResult.error e :: rest) q).1
      = Warn.findNextFailed e :: warningsOf (runNexts rest q).1
    ∧ emittedOf (runNexts (NextResult.error e :: rest) q).1
      = emittedOf (runNexts rest q).1
    ∧ countFindNext (runNexts (NextResult.error e :: rest) q).1
      = countFindNext (runNexts rest q).1 + 1 := by
  refine ⟨?_, ?_, ?_⟩
  · simp [runNexts, warningsOf]
  · simp [runNexts, emittedOf]
  · simp [runNexts, countFindNext, List.count_cons]

/-- C3 counterexample: the enumeration of `envUnknownVol`, whose only
volume classifies as `DRIVE_UNKNOWN`, returns no record but a non-empty
warnings list holding the `GetLastError` value: the volume is not
silently skipped. -/
theorem unknown_volume_warned_counterexample :
    warningsOf (producerTrace envUnknownVol none).1
      = [Warn.unknownDriveType (some "last error 5")]
    ∧ emittedOf (producerTrace envUnknownVol none).1 = []
    ∧ (PartitionsWithContext envUnknownVol none).2
      = RetErr.warningsRef [Warn.unknownDriveType (some "last error 5")] := by
  refine ⟨?_, ?_, ?_⟩ <;> decide

/-- C3 amended: an enumerated volume with at least one mount path whose
drive-type classification is Unknown emits no `MountRecord`, but it does
record exactly one warning — the `GetLastError` value — and the
enumeration then continues with the next volume. -/
theorem unknown_skipped_with_warning (v : VolumeSpec) (q : Option Nat)
    (p0 : String) (rest : List String)
    (hp : v.volumePaths = some (p0 :: rest))
    (hdt : v.driveType = DriveType.unknown) :
    emittedOf (processVolume v q).1 = []
    ∧ warningsOf (processVolume v q).1 = [Warn.unknownDriveType v.lastError]
    ∧ (processVolume v q).2 = (q, false) := by
  simp [processVolume, hp, hdt, emittedOf, warningsOf]

/-- Witness for the amended C3 at the concrete unknown volume. -/
theorem unknown_skipped_with_warning_witness :
    emittedOf (processVolume volUnknown none).1 = []
    ∧ warningsOf (processVolume volUnknown none).1
      = [Warn.unknownDriveType volUnknown.lastError]
    ∧ (processVolume volUnknown none).2 = (none, false) :=
  unknown_skipped_with_warning volUnknown none "U:\\" [] rfl rfl

/-- C5: when the mount-path information lookup fails for a path, a
volume typed Removable or CDROM is skipped silently — no record and no
warning beyond those of the remaining paths — while a volume typed Fixed
or Remote records exactly one warning and likewise emits no record for
that path. -/
theorem inspect_failure_policy (dt : DriveType)
    (gi : String → Except String FsInfo) (p : String) (ps : List String)
    (q : Option Nat) (e : String) (hfail : gi p = Except.error e) :
    ((dt = DriveType.removable ∨ dt = DriveType.cdrom) →
      emittedOf (processPaths dt gi (p :: ps) q).1
        = emittedOf (processPaths dt gi ps q).1
      ∧ warningsOf (processPaths dt gi (p :: ps) q).1
        = warningsOf (processPaths dt gi ps q).1)
    ∧ ((dt = DriveType.fixed ∨ dt = DriveType.remote) →
      emittedOf (processPaths dt gi (p :: ps) q).1
        = emittedOf (processPaths dt gi ps q).1
      ∧ warningsOf (processPaths dt gi (p :: ps) q).1
        = Warn.volumeInformationFailed e
          :: warningsOf (processPaths dt gi ps q).1) := by
  constructor
  · rintro (rfl | rfl) <;>
      simp [processPaths, admittedType, hfail, emittedOf, warningsOf]
  · rintro (rfl | rfl) <;>
      simp [processPaths, admittedType, hfail, emittedOf, warningsOf]

/-- Witness for C5: a fixed volume whose information lookup fails on its
only path yields exactly one warning and no record. -/
theorem inspect_failure_policy_witness :
    emittedOf (processPaths DriveType.fixed giFail ["C:\\"] none).1
      = emittedOf (processPaths DriveType.fixed giFail [] none).1
    ∧ warningsOf (processPaths DriveType.fixed giFail ["C:\\"] none).1
      = Warn.volumeInformationFailed "no info"
        :: warningsOf (processPaths DriveType.fixed giFail [] none).1 :=
  (inspect_failure_policy DriveType.fixed giFail "C:\\" [] none "no info"
    rfl).2 (Or.inl rfl)

/-- Witness for C8 at a concrete emitted record. -/
theorem emitted_opts_shape_witness :
    ∃ path info,
      mkStat "C:\\" { fsFlags := 0, fsName := "ntfs" } = mkStat path info
      ∧ (mkStat "C:\\" { fsFlags := 0, fsName := "ntfs" }).opts =
        (if Nat.land info.fsFlags fileReadOnlyVolume ≠ 0 then ["ro"]
          else ["rw"])
          ++ (if Nat.land info.fsFlags fileFileCompression ≠ 0 then
            ["compress"] else []) :=
  emitted_opts_shape envOneFixed none
    (mkStat "C:\\" { fsFlags := 0, fsName := "ntfs" }) (by decide)

/-- C4: a function-level fatal error is returned exactly when opening
the enumeration cursor fails — whenever the result carries
`fatalFirstVol` the first-volume call failed and the records are empty,
a failed open (without cancellation) returns exactly that error, and a
successful run finding zero usable volumes returns empty records with a
nil error, distinguishable from the fatal case by construction. -/
theorem fatal_only_cursor_open :
    (∀ env k e, (PartitionsWithContext env k).2 = RetErr.fatalFirstVol e →
      env.findFirstVolume = none ∧ (PartitionsWithContext env k).1 = [])
    ∧ (∀ env : Env, env.findFirstVolume = none →
      PartitionsWithContext env none
        = ([], RetErr.fatalFirstVol env.findFirstError))
    ∧ PartitionsWithContext envZeroRecords none = ([], RetErr.noError) := by
  refine ⟨fun env k e h => partitions_fatal_imp env k e h, ?_, by decide⟩
  intro env h
  have hpr := producer_fail_eq env none h
  simp [PartitionsWithContext, hpr, emittedOf, warningsOf]

/-- Witness for C4: the concrete failed-open environment. -/
theorem fatal_only_cursor_open_witness :
    PartitionsWithContext envOpenFail none
      = ([], RetErr.fatalFirstVol envOpenFail.findFirstError) :=
  fatal_only_cursor_open.2.1 envOpenFail rfl

/-- C6: when the context fires after `k` records were received (at most
the total the producer delivers), `PartitionsWithContext` returns
exactly those first `k` records plus the cancellation error — an
outcome distinct from both the fatal cursor-open error and the
warnings reference — and cancellation before any record yields empty
records plus the cancellation error. -/
theorem cancellation_returns_accumulated (env : Env) (k : Nat)
    (h : k ≤ (PartitionsWithContext env none).1.length) :
    (PartitionsWithContext env (some k)).1
      = (PartitionsWithContext env none).1.take k
    ∧ (PartitionsWithContext env (some k)).2 = RetErr.ctxCancelled
    ∧ (∀ e, RetErr.ctxCancelled ≠ RetErr.fatalFirstVol e)
    ∧ (∀ ws, RetErr.ctxCancelled ≠ RetErr.warningsRef ws)
    ∧ (k = 0 → (PartitionsWithContext env (some k)).1 = []) := by
  have hrec : (PartitionsWithContext env none).1
      = emittedOf (producerTrace env none).1 := rfl
  rw [hrec] at h
  have hc := partitions_cancel_eq env k h
  refine ⟨?_, ?_, ?_, ?_, ?_⟩
  · rw [hc, hrec]
  · rw [hc]
  · intro e he
    exact RetErr.noConfusion he
  · intro ws hw
    exact RetErr.noConfusion hw
  · intro hk
    rw [hc, hk]
    simp

/-- Witness for C6: immediate cancellation on a concrete environment. -/
theorem cancellation_returns_accumulated_witness :
    (PartitionsWithContext envOneFixed (some 0)).1
      = (PartitionsWithContext envOneFixed none).1.take 0
    ∧ (PartitionsWithContext envOneFixed (some 0)).2 = RetErr.ctxCancelled
    ∧ (∀ e, RetErr.ctxCancelled ≠ RetErr.fatalFirstVol e)
    ∧ (∀ ws, RetErr.ctxCancelled ≠ RetErr.warningsRef ws)
    ∧ (0 = 0 → (PartitionsWithContext envOneFixed (some 0)).1 = []) :=
  cancellation_returns_accumulated envOneFixed 0 (Nat.zero_le _)

/-- C10: for a volume with at least one resolved mount path the
drive-type classification runs exactly once, on the first mount path,
and that single result decides admission and type for every path: an
admitted volume whose information lookups all succeed emits exactly one
record per mount path (in path order), and every such record's
mountpoint and device equal the mount path with its trailing
backslashes removed. -/
theorem classify_once_records_per_path (v : VolumeSpec) (p0 : String)
    (rest : List String) (info : String → FsInfo)
    (hpaths : v.volumePaths = some (p0 :: rest))
    (hadm : admittedType v.driveType = true)
    (hok : ∀ p ∈ p0 :: rest,
      v.getVolumeInformation p = Except.ok (info p)) :
    countGetDriveType (processVolume v none).1 = 1
    ∧ Action.getDriveType p0 ∈ (processVolume v none).1
    ∧ emittedOf (processVolume v none).1
      = (p0 :: rest).map (fun p => mkStat p (info p))
    ∧ ∀ p : String,
      (mkStat p (info p)).mountpoint = trimRightBackslash p
      ∧ (mkStat p (info p)).device = trimRightBackslash p := by
  have hne : (v.driveType == DriveType.unknown) = false := by
    cases hdt : v.driveType <;> simp_all [admittedType]
  have htr : (processVolume v none).1
      = Action.getVolumePaths v.name :: Action.getDriveType p0 ::
        (processPaths v.driveType v.getVolumeInformation
          (p0 :: rest) none).1 := by
    simp [processVolume, hpaths, hne]
  refine ⟨?_, ?_, ?_, fun p => ⟨rfl, rfl⟩⟩
  · rw [htr, countGetDriveType, List.filter_cons, List.filter_cons]
    have e1 : isGetDriveType (Action.getVolumePaths v.name) = false := rfl
    have e2 : isGetDriveType (Action.getDriveType p0) = true := rfl
    rw [e1, e2]
    simp [processPaths_no_gdt]
  · rw [htr]
    simp
  · rw [htr]
    have hstep : emittedOf (Action.getVolumePaths v.name ::
        Action.getDriveType p0 ::
        (processPaths v.driveType v.getVolumeInformation
          (p0 :: rest) none).1)
        = emittedOf (processPaths v.driveType v.getVolumeInformation
          (p0 :: rest) none).1 := rfl
    rw [hstep]
    exact processPaths_all_ok v.driveType v.getVolumeInformation
      (p0 :: rest) info hadm hok

/-- Witness for C10: a fixed volume with two mount paths, the second
with a trailing backslash to strip. -/
theorem classify_once_records_per_path_witness :
    countGetDriveType (processVolume volTwoPaths none).1 = 1
    ∧ Action.getDriveType "C:\\" ∈ (processVolume volTwoPaths none).1
    ∧ emittedOf (processVolume volTwoPaths none).1
      = (["C:\\", "C:\\mnt\\data\\"].map fun p =>
          mkStat p { fsFlags := 524288, fsName := "ntfs" })
    ∧ ∀ p : String,
      (mkStat p { fsFlags := 524288, fsName := "ntfs" }).mountpoint
        = trimRightBackslash p
      ∧ (mkStat p { fsFlags := 524288, fsName := "ntfs" }).device
        = trimRightBackslash p :=
  classify_once_records_per_path volTwoPaths "C:\\" ["C:\\mnt\\data\\"]
    (fun _ => { fsFlags := 524288, fsName := "ntfs" }) rfl rfl
    (fun _ _ => rfl)

end Gopsutil
